import Mathlib

/-!
# Verification of the load-balancer configuration engine

Shallow embedding of the Go sources of `eucalyptus-load-balancer-go`:
the activity value cache (`main.go`), the HAProxy policy registry and
reconciliation handler (`haproxy_manager.go`), and the composite activity
handler (channel/composite handler source file).

Modelling conventions:
* Go maps are modelled as association lists (`List (String × _)`) with
  `List.lookup`; map assignment replaces the binding for the key.
* Wall-clock timestamps are natural numbers counting seconds; Go's
  `time.Time.Second()` (the seconds-within-the-minute component) is `t % 60`.
* The SHA-1 digest (`crypto/sha1`, an external library) is a parameter
  `digest : String → String`; where a property needs it, the hypothesis that
  its output matches the 40-hex-character pattern is stated explicitly.
* XML decoding (`encoding/xml`) and the haproxy config-parser library are
  external; they appear as explicit function parameters (`parse`, `WriteDeps`).
* Go map iteration order is unspecified; it is modelled by an explicit
  `order : List String` parameter constrained in theorems to be a permutation
  of the collected key list.
-/

namespace LoadBalancerServo

/-! ## Value cache (`main.go`) -/

/-- `ActivityCacheSeconds` from `main.go`: cache time for activity values. -/
def ActivityCacheSeconds : Nat := 300

/-- `CachedValue` from `main.go`: an activity value and time of last access. -/
structure CachedValue where
  time : Nat
  value : String
deriving Repr, DecidableEq

/-- One per-stream sub-cache of `ActivityValuesBySha1`: a Go
`map[string]CachedValue` modelled as an association list. -/
abbrev Cache := List (String × CachedValue)

/-- Go map assignment `m[k] = v`: replace any existing binding of `k`. -/
def mapInsert {α : Type} (m : List (String × α)) (k : String) (v : α) :
    List (String × α) :=
  (k, v) :: m.filter (fun kv => kv.1 != k)

/-- Go `time.Time.Second()`: the seconds-within-the-minute clock component. -/
def goSecond (t : Nat) : Nat := t % 60

/-- Character class of the Go regex `[0-9a-fA-F]`. -/
def isHexChar (c : Char) : Bool :=
  (('0' ≤ c && c ≤ '9') || ('a' ≤ c && c ≤ 'f') || ('A' ≤ c && c ≤ 'F'))

/-- Go `regexp.MatchString("[0-9a-fA-F]{40}", value)`: an unanchored match,
true iff some run of 40 consecutive hex characters occurs anywhere in the
string. (The constant pattern always compiles, so the regex error is nil.) -/
def matchHashPattern (s : String) : Bool :=
  s.data.tails.any (fun t => 40 ≤ t.length && (t.take 40).all isHexChar)

/-- The property `matchHashPattern` decides, phrased as containment of a
40-character hex run as a contiguous substring. -/
def ContainsHexRun (s : String) : Prop :=
  ∃ pre run post : List Char,
    s.data = pre ++ run ++ post ∧ run.length = 40 ∧ ∀ c ∈ run, isHexChar c

/-- `cacheMaintain` from `main.go`: remove the keys the code considers stale,
i.e. those with `timeNow.Second() > cachedValue.Time.Second() + 300`. -/
def cacheMaintain (timeNow : Nat) (valueCache : Cache) : Cache :=
  valueCache.filter
    (fun kv => !(goSecond kv.2.time + ActivityCacheSeconds < goSecond timeNow))

/-- `activityValueCache` from `main.go`, for a single stream's sub-cache.
Returns the resulting activity value together with the updated sub-cache.
`digest` stands for `fmt.Sprintf("%x", sha1.Sum([]byte(value)))`. -/
def activityValueCache (digest : String → String) (timeNow : Nat)
    (valueCache : Cache) (value : String) : String × Cache :=
  let resolved : String × String :=
    if matchHashPattern value then
      match List.lookup value valueCache with
      | some cachedValue => (cachedValue.value, value)
      | none => ("", value)
    else
      (value, digest value)
  let newCache :=
    if resolved.1 != "" then mapInsert valueCache resolved.2 ⟨timeNow, resolved.1⟩
    else valueCache
  (resolved.1, cacheMaintain timeNow newCache)

/-- A fixed stand-in digest function for concrete examples: constantly a
40-hex-character string (the cache logic never inspects the digest's
internals). -/
def digest0 : String → String := fun _ => "0123456789abcdef0123456789abcdef01234567"

/-- Cache states reachable from the empty per-stream sub-cache through the
operations of the program: `activityValueCache` calls (store of a literal,
lookup by hash with hit or miss, each followed by the maintenance sweep) and
stand-alone maintenance sweeps. -/
inductive CacheReach (digest : String → String) : Cache → Prop
  | empty : CacheReach digest []
  | op (v : String) (t : Nat) {c : Cache} : CacheReach digest c →
      CacheReach digest (activityValueCache digest t c v).2
  | sweep (t : Nat) {c : Cache} : CacheReach digest c →
      CacheReach digest (cacheMaintain t c)

/-! ## Decoded activity snapshots (`credentials.go`)

Only the fields read by the reconciliation handler are carried; the remaining
XML fields (ports, health check, timestamps, attributes, …) are never read by
`HandlePolicy`/`HandleLoadBalancer` and are omitted. -/

/-- `ActivityPolicyAttribute` from `credentials.go`. -/
structure ActivityPolicyAttribute where
  attributeName : String
  attributeValue : String
deriving Repr, DecidableEq

/-- `ActivityPolicy` from `credentials.go`. -/
structure ActivityPolicy where
  policyName : String
  policyTypeName : String
  policyAttributes : List ActivityPolicyAttribute
deriving Repr, DecidableEq

/-- `ActivityLoadBalancerListener` from `credentials.go` (fields read by the
handler). -/
structure ActivityLoadBalancerListener where
  protocol : String
  policyNames : List String
deriving Repr, DecidableEq

/-- `ActivityBackendServer` from `credentials.go` (fields read by the
handler). -/
structure ActivityBackendServer where
  instancePort : Int
  policyNames : List String
deriving Repr, DecidableEq

/-- `ActivityLoadBalancer` from `credentials.go` (fields read by the
handler). -/
structure ActivityLoadBalancer where
  loadBalancerName : String
  dnsName : String
  listeners : List ActivityLoadBalancerListener
  policyDescriptions : List ActivityPolicy
  backendServers : List ActivityBackendServer
deriving Repr, DecidableEq

/-- `ActivityDescriptions` from `credentials.go`. -/
structure ActivityDescriptions where
  loadBalancers : List ActivityLoadBalancer
deriving Repr, DecidableEq

/-! ## Policy registry and reconciliation (`haproxy_manager.go`) -/

/-- The `Policies` field of `HAproxyPolicyCache`: a Go
`map[string]ActivityPolicy` modelled as an association list. -/
abbrev Registry := List (String × ActivityPolicy)

/-- `HAproxyPolicyCache.RetainOnly` from `haproxy_manager.go`: delete every
entry whose key is not among `retainKeys`. -/
def RetainOnly (reg : Registry) (retainKeys : List String) : Registry :=
  reg.filter (fun kv => retainKeys.contains kv.1)

/-- Helper collecting policy names with first-occurrence order, dropping
duplicates: the key set of the Go map `activePolicyNames` built by
`HandleLoadBalancer`. -/
def dedupFirstAux (seen : List String) : List String → List String
  | [] => []
  | a :: l =>
    if seen.contains a then dedupFirstAux seen l
    else a :: dedupFirstAux (a :: seen) l

/-- Key list of the `activePolicyNames` map of `HandleLoadBalancer`: every
policy name referenced by a listener or a backend server, duplicates
collapsed, in first-occurrence order. -/
def collectPolicyNames (lb : ActivityLoadBalancer) : List String :=
  dedupFirstAux []
    ((lb.listeners.flatMap (fun l => l.policyNames)) ++
      (lb.backendServers.flatMap (fun b => b.policyNames)))

/-- The resolution loop of `HandleLoadBalancer`: look each name up in the
policy cache, stopping with `policy not found` at the first missing one.
`order` is the iteration order of the `activePolicyNames` map. -/
def resolvePolicies (reg : Registry) : List String → Except String (List ActivityPolicy)
  | [] => .ok []
  | n :: rest =>
    match List.lookup n reg with
    | some activePolicy =>
      match resolvePolicies reg rest with
      | .ok ps => .ok (activePolicy :: ps)
      | .error e => .error e
    | none => .error ("policy not found " ++ n)

/-- The external pieces used by `WriteConfiguration`: template file reading,
the haproxy config-parser library (`ParseData`, the section updates of
`UpdateConfiguration`, `String()`), and configuration file writing. `Cfg`
stands for the parser document state. -/
structure WriteDeps (Cfg : Type) where
  templateSupplier : Unit → Except String String
  parseData : String → Except String Cfg
  updateConfiguration : Cfg → ActivityLoadBalancer → Except String Cfg
  configToText : Cfg → String
  configurationReceiver : String → Except String Unit

/-- `HaproxyConfigurationHandler.WriteConfiguration` from
`haproxy_manager.go`: load the template, parse it, update it from the load
balancer, and emit the serialized text; each step short-circuits on error. -/
def WriteConfiguration {Cfg : Type} (deps : WriteDeps Cfg)
    (lb : ActivityLoadBalancer) : Except String Unit := do
  let template ← deps.templateSupplier ()
  let cfg ← deps.parseData template
  let cfg2 ← deps.updateConfiguration cfg lb
  deps.configurationReceiver (deps.configToText cfg2)

/-- `HaproxyConfigurationHandler.HandlePolicy` from `haproxy_manager.go`.
`parse` stands for `ActivityDescriptionsString` (XML decoding). Returns the
updated registry and the handler's error value. -/
def HandlePolicy (parse : String → Except String ActivityDescriptions)
    (reg : Registry) (policy : String) : Registry × Except String Unit :=
  match parse policy with
  | .error e => (reg, .error e)
  | .ok activityDescriptions =>
    match activityDescriptions.loadBalancers with
    | [lb0] =>
      match lb0.policyDescriptions with
      | [activityPolicy] =>
        (mapInsert reg activityPolicy.policyName activityPolicy, .ok ())
      | _ => (reg, .ok ())
    | _ => (reg, .ok ())

/-- `HaproxyConfigurationHandler.HandleLoadBalancer` from
`haproxy_manager.go`. `parse` stands for `ActivityDescriptionsString`;
`order` is the iteration order of the `activePolicyNames` map (a permutation
of `collectPolicyNames`); the third component records the load balancer
passed to `WriteConfiguration`, if it was invoked. -/
def HandleLoadBalancer {Cfg : Type} (deps : WriteDeps Cfg)
    (parse : String → Except String ActivityDescriptions)
    (order : List String) (reg : Registry) (loadBalancer : String) :
    Registry × Except String Unit × Option ActivityLoadBalancer :=
  match parse loadBalancer with
  | .error e => (reg, .error e, none)
  | .ok activityDescriptions =>
    match activityDescriptions.loadBalancers with
    | [lb0] =>
      if lb0.policyDescriptions.length = 0 then
        match resolvePolicies reg order with
        | .error e => (reg, .error e, none)
        | .ok ps =>
          let lb := { lb0 with policyDescriptions := lb0.policyDescriptions ++ ps }
          let reg2 := RetainOnly reg (collectPolicyNames lb0)
          (reg2, WriteConfiguration deps lb, some lb)
      else (reg, .ok (), none)
    | _ => (reg, .ok (), none)

/-- `HaproxyConfigurationHandler.Send` from `haproxy_manager.go`: dispatch on
the two distinguished sink names, otherwise succeed without doing anything. -/
def Send {Cfg : Type} (deps : WriteDeps Cfg)
    (parse : String → Except String ActivityDescriptions)
    (order : List String) (reg : Registry) (name value : String) :
    Registry × Except String Unit × Option ActivityLoadBalancer :=
  if name = "set-policy" then
    let r := HandlePolicy parse reg value
    (r.1, r.2, none)
  else if name = "set-loadbalancer" then
    HandleLoadBalancer deps parse order reg value
  else
    (reg, .ok (), none)

/-- The shape guard of `HandlePolicy`: exactly one load balancer carrying
exactly one policy. -/
def policyOnlyShape (d : ActivityDescriptions) : Bool :=
  match d.loadBalancers with
  | [lb0] => lb0.policyDescriptions.length == 1
  | _ => false

/-- The shape guard of `HandleLoadBalancer`: exactly one load balancer with
zero attached policies. -/
def loadBalancerOnlyShape (d : ActivityDescriptions) : Bool :=
  match d.loadBalancers with
  | [lb0] => lb0.policyDescriptions.length == 0
  | _ => false

/-! ## Composite activity handler -/

/-- The behaviour of an `ActivityHandler`'s `Send` method: pure summary of
whether a send of the given name/value succeeds. -/
structure SimHandler where
  send : String → String → Except String Unit

/-- `CompositeHandler`: the handler list is built by `NewCompositeHandler`
with the primary at index 0 followed by the secondaries. -/
structure CompositeHandler where
  primary : SimHandler
  secondaries : List SimHandler

/-- `NewCompositeHandler`. -/
def NewCompositeHandler (primary : SimHandler) (secondaries : List SimHandler) :
    CompositeHandler :=
  ⟨primary, secondaries⟩

/-- `CompositeHandler.Send`: invoke the primary; only when it succeeds,
invoke each secondary, discarding its error; return the primary's error
value. The second component is the trace of the secondary invocations
actually performed: their arguments and discarded results, in order. -/
def CompositeHandler.Send (h : CompositeHandler) (name value : String) :
    Except String Unit × List (String × String × Except String Unit) :=
  match h.primary.send name value with
  | .error e => (.error e, [])
  | .ok _ => (.ok (), h.secondaries.map (fun s => (name, value, s.send name value)))

/-! ## Fixtures for concrete examples -/

/-- Emission dependencies for examples: every step succeeds. -/
def deps0 : WriteDeps Unit :=
  ⟨fun _ => .ok "", fun _ => .ok (), fun c _ => .ok c, fun _ => "", fun _ => .ok ()⟩

/-- Emission dependencies whose template read fails. -/
def depsFail : WriteDeps Unit :=
  ⟨fun _ => .error "template read failed", fun _ => .ok (), fun c _ => .ok c,
    fun _ => "", fun _ => .ok ()⟩

/-- Example policy named `A`. -/
def polA : ActivityPolicy := ⟨"A", "LBCookieStickinessPolicyType", []⟩

/-- Example policy named `B`. -/
def polB : ActivityPolicy := ⟨"B", "LBCookieStickinessPolicyType", []⟩

/-- A load balancer whose single listener references policies A then B. -/
def lbAB : ActivityLoadBalancer :=
  ⟨"balancer-1", "balancer-1.dns", [⟨"HTTP", ["A", "B"]⟩], [], []⟩

/-- A load balancer whose single listener references policy A only. -/
def lbA : ActivityLoadBalancer :=
  ⟨"balancer-1", "balancer-1.dns", [⟨"HTTP", ["A"]⟩], [], []⟩

/-- A malformed snapshot member: a load balancer carrying two policies. -/
def lbMixed : ActivityLoadBalancer :=
  ⟨"balancer-1", "balancer-1.dns", [⟨"HTTP", ["A"]⟩], [polA, polB], []⟩

/-- Decoder stub returning the A,B load balancer snapshot. -/
def parseLbAB : String → Except String ActivityDescriptions := fun _ => .ok ⟨[lbAB]⟩

/-- Decoder stub returning the A-only load balancer snapshot. -/
def parseLbA : String → Except String ActivityDescriptions := fun _ => .ok ⟨[lbA]⟩

/-- Decoder stub returning a snapshot with zero load balancers. -/
def parseEmpty : String → Except String ActivityDescriptions := fun _ => .ok ⟨[]⟩

/-- Decoder stub returning the two-policy snapshot. -/
def parseMixed : String → Except String ActivityDescriptions := fun _ => .ok ⟨[lbMixed]⟩

/-- A handler whose send always fails. -/
def failP : SimHandler := ⟨fun _ _ => .error "primary down"⟩

/-- A handler whose send always succeeds. -/
def okP : SimHandler := ⟨fun _ _ => .ok ()⟩

/-- A secondary handler whose send always fails. -/
def failS : SimHandler := ⟨fun _ _ => .error "secondary down"⟩

/-! ## Helper lemmas -/

/-- The staleness test in `cacheMaintain` compares clock components bounded by
59 against a threshold of at least 300, so it never fires. -/
theorem cacheMaintain_eq_id (timeNow : Nat) (valueCache : Cache) :
    cacheMaintain timeNow valueCache = valueCache := by
  unfold cacheMaintain
  have h : ∀ kv : String × CachedValue,
      (!(goSecond kv.2.time + ActivityCacheSeconds < goSecond timeNow)) = true := by
    intro kv
    have h1 : goSecond timeNow < 60 := Nat.mod_lt _ (by norm_num)
    simp only [Bool.not_eq_true', decide_eq_false_iff_not, not_lt,
      ActivityCacheSeconds]
    omega
  simp [List.filter_eq_self.mpr (fun kv _ => h kv)]

theorem matchHashPattern_iff (s : String) :
    matchHashPattern s = true ↔ ContainsHexRun s := by
  unfold matchHashPattern ContainsHexRun
  rw [List.any_eq_true]
  constructor
  · rintro ⟨t, ht, hprop⟩
    rw [List.mem_tails] at ht
    obtain ⟨pre, hpre⟩ := ht
    simp only [Bool.and_eq_true, decide_eq_true_eq, List.all_eq_true] at hprop
    refine ⟨pre, t.take 40, t.drop 40, ?_, ?_, ?_⟩
    · rw [List.append_assoc, List.take_append_drop, hpre]
    · simp [List.length_take]; omega
    · intro c hc; exact hprop.2 c hc
  · rintro ⟨pre, run, post, hs, hlen, hhex⟩
    refine ⟨run ++ post, ?_, ?_⟩
    · rw [List.mem_tails, hs]
      exact ⟨pre, by rw [List.append_assoc]⟩
    · simp only [Bool.and_eq_true, decide_eq_true_eq, List.all_eq_true]
      constructor
      · simp; omega
      · intro c hc
        rw [List.take_append_of_le_length (by omega), ← hlen,
          List.take_length] at hc
        exact hhex c hc

theorem resolvePolicies_all_found (reg : Registry) (order : List String)
    (h : ∀ n ∈ order, (List.lookup n reg).isSome) :
    resolvePolicies reg order = .ok (order.filterMap (fun n => List.lookup n reg)) := by
  induction order with
  | nil => rfl
  | cons a rest ih =>
    have ha : (List.lookup a reg).isSome := h a (List.mem_cons_self a rest)
    obtain ⟨p, hp⟩ := Option.isSome_iff_exists.mp ha
    have hrest := ih (fun n hn => h n (List.mem_cons_of_mem a hn))
    simp [resolvePolicies, hp, hrest, List.filterMap_cons]

theorem resolvePolicies_missing (reg : Registry) (order : List String)
    (h : ∃ n ∈ order, List.lookup n reg = none) :
    ∃ m ∈ order, List.lookup m reg = none ∧
      resolvePolicies reg order = .error ("policy not found " ++ m) := by
  induction order with
  | nil => simp at h
  | cons a rest ih =>
    cases hla : List.lookup a reg with
    | none =>
      exact ⟨a, List.mem_cons_self a rest, hla, by simp [resolvePolicies, hla]⟩
    | some p =>
      have hr : ∃ n ∈ rest, List.lookup n reg = none := by
        obtain ⟨n, hn, hnone⟩ := h
        rcases List.mem_cons.mp hn with rfl | hmem
        · rw [hla] at hnone; exact absurd hnone (by simp)
        · exact ⟨n, hmem, hnone⟩
      obtain ⟨m, hm, hmnone, herr⟩ := ih hr
      exact ⟨m, List.mem_cons_of_mem a hm, hmnone,
        by simp [resolvePolicies, hla, herr]⟩

theorem mem_dedupFirstAux {a : String} :
    ∀ (l seen : List String), a ∈ dedupFirstAux seen l → a ∈ l ∧ a ∉ seen := by
  intro l
  induction l with
  | nil => intro seen h; simp [dedupFirstAux] at h
  | cons b rest ih =>
    intro seen h
    by_cases hb : seen.contains b
    · rw [dedupFirstAux, if_pos hb] at h
      obtain ⟨h1, h2⟩ := ih seen h
      exact ⟨List.mem_cons_of_mem b h1, h2⟩
    · rw [dedupFirstAux, if_neg hb] at h
      rcases List.mem_cons.mp h with rfl | hmem
      · refine ⟨List.mem_cons_self a rest, ?_⟩
        simpa using hb
      · obtain ⟨h1, h2⟩ := ih (b :: seen) hmem
        refine ⟨List.mem_cons_of_mem b h1, fun hc => h2 (List.mem_cons_of_mem b hc)⟩

theorem dedupFirstAux_nodup : ∀ (l seen : List String), (dedupFirstAux seen l).Nodup := by
  intro l
  induction l with
  | nil => intro seen; simp [dedupFirstAux]
  | cons b rest ih =>
    intro seen
    by_cases hb : seen.contains b
    · rw [dedupFirstAux, if_pos hb]; exact ih seen
    · rw [dedupFirstAux, if_neg hb]
      refine List.nodup_cons.mpr ⟨?_, ih (b :: seen)⟩
      intro hcon
      exact (mem_dedupFirstAux rest (b :: seen) hcon).2 (List.mem_cons_self b seen)

theorem collectPolicyNames_nodup (lb : ActivityLoadBalancer) :
    (collectPolicyNames lb).Nodup :=
  dedupFirstAux_nodup _ []

theorem lookup_mapInsert_self {α : Type} (m : List (String × α)) (k : String) (v : α) :
    List.lookup k (mapInsert m k v) = some v := by
  simp [mapInsert, List.lookup]

theorem lookup_mem {α : Type} :
    ∀ {m : List (String × α)} {k : String} {v : α},
      List.lookup k m = some v → (k, v) ∈ m := by
  intro m
  induction m with
  | nil => intro k v h; simp [List.lookup] at h
  | cons kv rest ih =>
    intro k v h
    obtain ⟨k1, v1⟩ := kv
    by_cases hk : k = k1
    · subst hk
      simp [List.lookup] at h
      subst h
      exact List.mem_cons_self _ _
    · have hbeq : (k == k1) = false := beq_eq_false_iff_ne.mpr hk
      simp [List.lookup, hbeq] at h
      exact List.mem_cons_of_mem _ (ih h)

theorem mem_mapInsert {α : Type} {m : List (String × α)} {k0 : String} {v0 : α}
    {k : String} {v : α} (h : (k, v) ∈ mapInsert m k0 v0) :
    (k = k0 ∧ v = v0) ∨ (k, v) ∈ m := by
  rcases List.mem_cons.mp h with heq | hmem
  · left
    exact ⟨congrArg Prod.fst heq, congrArg Prod.snd heq⟩
  · right
    exact List.mem_of_mem_filter hmem

/-! Unfolding lemmas for `activityValueCache`, one per control path. -/

theorem activityValueCache_of_literal {digest : String → String} {t : Nat}
    {c : Cache} {v : String} (hm : matchHashPattern v = false) (hne : v ≠ "") :
    activityValueCache digest t c v = (v, mapInsert c (digest v) ⟨t, v⟩) := by
  unfold activityValueCache
  simp [hm, hne, cacheMaintain_eq_id]

theorem activityValueCache_of_hit {digest : String → String} {t : Nat}
    {c : Cache} {v : String} {cv0 : CachedValue} (hm : matchHashPattern v = true)
    (hl : List.lookup v c = some cv0) (hv : cv0.value ≠ "") :
    activityValueCache digest t c v = (cv0.value, mapInsert c v ⟨t, cv0.value⟩) := by
  unfold activityValueCache
  simp [hm, hl, hv, cacheMaintain_eq_id]

theorem activityValueCache_of_hit_empty {digest : String → String} {t : Nat}
    {c : Cache} {v : String} {cv0 : CachedValue} (hm : matchHashPattern v = true)
    (hl : List.lookup v c = some cv0) (hv : cv0.value = "") :
    activityValueCache digest t c v = ("", c) := by
  unfold activityValueCache
  simp [hm, hl, hv, cacheMaintain_eq_id]

theorem activityValueCache_of_miss {digest : String → String} {t : Nat}
    {c : Cache} {v : String} (hm : matchHashPattern v = true)
    (hl : List.lookup v c = none) :
    activityValueCache digest t c v = ("", c) := by
  unfold activityValueCache
  simp [hm, hl, cacheMaintain_eq_id]

theorem activityValueCache_of_empty {digest : String → String} {t : Nat}
    {c : Cache} : activityValueCache digest t c "" = ("", c) := by
  have hm : matchHashPattern "" = false := by decide
  unfold activityValueCache
  simp [hm, cacheMaintain_eq_id]

theorem mem_activityValueCache_snd {digest : String → String} {t : Nat}
    {c : Cache} {v : String} {k : String} {cv : CachedValue}
    (h : (k, cv) ∈ (activityValueCache digest t c v).2) :
    (k, cv) ∈ c ∨
    (k = digest v ∧ cv = ⟨t, v⟩) ∨
    (∃ cv0, List.lookup v c = some cv0 ∧ k = v ∧ cv = ⟨t, cv0.value⟩) := by
  by_cases hm : matchHashPattern v
  · cases hl : List.lookup v c with
    | none =>
      rw [activityValueCache_of_miss hm hl] at h
      exact Or.inl h
    | some cv0 =>
      by_cases hv : cv0.value = ""
      · rw [activityValueCache_of_hit_empty hm hl hv] at h
        exact Or.inl h
      · rw [activityValueCache_of_hit hm hl hv] at h
        rcases mem_mapInsert h with ⟨rfl, rfl⟩ | hmem
        · exact Or.inr (Or.inr ⟨cv0, rfl, rfl, rfl⟩)
        · exact Or.inl hmem
  · have hm2 : matchHashPattern v = false := eq_false_of_ne_true hm
    by_cases hne : v = ""
    · subst hne
      rw [activityValueCache_of_empty] at h
      exact Or.inl h
    · rw [activityValueCache_of_literal hm2 hne] at h
      rcases mem_mapInsert h with ⟨rfl, rfl⟩ | hmem
      · exact Or.inr (Or.inl ⟨rfl, rfl⟩)
      · exact Or.inl hmem

theorem mem_activityValueCache_snd_of_match {digest : String → String} {t : Nat}
    {c : Cache} {v : String} {k : String} {cv : CachedValue}
    (hm : matchHashPattern v = true)
    (h : (k, cv) ∈ (activityValueCache digest t c v).2) :
    (k, cv) ∈ c ∨
    (k = v ∧ ∃ cv0, List.lookup v c = some cv0 ∧ cv = ⟨t, cv0.value⟩) := by
  cases hl : List.lookup v c with
  | none =>
    rw [activityValueCache_of_miss hm hl] at h
    exact Or.inl h
  | some cv0 =>
    by_cases hv : cv0.value = ""
    · rw [activityValueCache_of_hit_empty hm hl hv] at h
      exact Or.inl h
    · rw [activityValueCache_of_hit hm hl hv] at h
      rcases mem_mapInsert h with ⟨rfl, rfl⟩ | hmem
      · exact Or.inr ⟨rfl, cv0, rfl, rfl⟩
      · exact Or.inl hmem

theorem HandlePolicy_wrong_shape
    (parse : String → Except String ActivityDescriptions) (reg : Registry)
    (value : String) (d : ActivityDescriptions) (hparse : parse value = .ok d)
    (hp : policyOnlyShape d = false) :
    HandlePolicy parse reg value = (reg, .ok ()) := by
  unfold HandlePolicy
  rw [hparse]
  unfold policyOnlyShape at hp
  cases hlbs : d.loadBalancers with
  | nil => simp [hlbs]
  | cons lb0 tl =>
    cases htl : tl with
    | nil =>
      rw [hlbs, htl] at hp
      simp at hp
      cases hpd : lb0.policyDescriptions with
      | nil => simp [hlbs, htl, hpd]
      | cons p ptl =>
        cases hptl : ptl with
        | nil =>
          rw [hpd, hptl] at hp
          simp at hp
        | cons p2 ptl2 => simp [hlbs, htl, hpd, hptl]
    | cons lb1 tl2 => simp [hlbs, htl]

theorem HandleLoadBalancer_wrong_shape {Cfg : Type} (deps : WriteDeps Cfg)
    (parse : String → Except String ActivityDescriptions)
    (order : List String) (reg : Registry) (value : String)
    (d : ActivityDescriptions) (hparse : parse value = .ok d)
    (hl : loadBalancerOnlyShape d = false) :
    HandleLoadBalancer deps parse order reg value = (reg, .ok (), none) := by
  unfold HandleLoadBalancer
  rw [hparse]
  unfold loadBalancerOnlyShape at hl
  cases hlbs : d.loadBalancers with
  | nil => simp [hlbs]
  | cons lb0 tl =>
    cases htl : tl with
    | nil =>
      rw [hlbs, htl] at hl
      simp at hl
      simp [hlbs, htl, hl]
    | cons lb1 tl2 => simp [hlbs, htl]

/-! ## Claim theorems: value cache -/

/-- C2 (code bug): the staleness sweep of `cacheMaintain` compares the
seconds-within-the-minute clock component against a 300-second offset, so an
entry whose elapsed real time since last access exceeds the 300-unit TTL is
neither removed by a later store's maintenance sweep nor withheld from a
later resolve. Concretely: an entry cached at time 0 survives the sweep run
by a store at time 400 and is still returned by a resolve at time 500. -/
theorem c2_stale_entry_survives :
    (activityValueCache digest0 400
        [(String.mk (List.replicate 40 'a'), ⟨0, "v"⟩)] "w").2 =
      [(digest0 "w", ⟨400, "w"⟩), (String.mk (List.replicate 40 'a'), ⟨0, "v"⟩)] ∧
    (activityValueCache digest0 500
        [(String.mk (List.replicate 40 'a'), ⟨0, "v"⟩)]
        (String.mk (List.replicate 40 'a'))).1 = "v" := by
  decide

/-- C6 counterexample: storing the literal value `"hello"` returns the value
itself, not its content digest, so the claim that `store` returns the digest
is false on the code (the digest is only used as the cache key). -/
theorem c6_counterexample :
    (activityValueCache digest0 0 [] "hello").1 = "hello" ∧
    (activityValueCache digest0 0 [] "hello").1 ≠ digest0 "hello" := by
  decide

/-- C6 (amended): storing a literal value V (nonempty, not matching the hash
pattern) returns V itself and registers V under its content digest H; a
subsequent resolve of H on the same stream returns V (and no maintenance
sweep can evict it, since the sweep never removes anything). -/
theorem c6_round_trip (digest : String → String) (t t2 : Nat) (c : Cache)
    (v : String) (hm : matchHashPattern v = false) (hne : v ≠ "")
    (hdig : matchHashPattern (digest v) = true) :
    (activityValueCache digest t c v).1 = v ∧
    (activityValueCache digest t2 (activityValueCache digest t c v).2
        (digest v)).1 = v := by
  constructor
  · rw [activityValueCache_of_literal hm hne]
  · rw [show (activityValueCache digest t c v).2 =
        mapInsert c (digest v) ⟨t, v⟩ from by
      rw [activityValueCache_of_literal hm hne]]
    rw [activityValueCache_of_hit hdig
      (lookup_mapInsert_self c (digest v) ⟨t, v⟩) hne]

/-- Witness for C6 (amended) at the concrete value `"hello"`. -/
theorem c6_witness :
    (activityValueCache digest0 0 [] "hello").1 = "hello" ∧
    (activityValueCache digest0 1 (activityValueCache digest0 0 [] "hello").2
        (digest0 "hello")).1 = "hello" :=
  c6_round_trip digest0 0 1 [] "hello" (by decide) (by decide) (by decide)

/-- C8: in every cache state reachable from the empty per-stream sub-cache
through the program's cache operations, each entry's key is the digest of
that entry's own stored value. -/
theorem c8_key_is_digest (digest : String → String) (c : Cache)
    (hreach : CacheReach digest c) :
    ∀ k cv, (k, cv) ∈ c → k = digest cv.value := by
  induction hreach with
  | empty => intro k cv h; simp at h
  | op v t hr ih =>
    intro k cv h
    rcases mem_activityValueCache_snd h with hmem | ⟨rfl, rfl⟩ | ⟨cv0, hl, rfl, rfl⟩
    · exact ih k cv hmem
    · rfl
    · simpa using ih k cv0 (lookup_mem hl)
  | sweep t hr ih =>
    intro k cv h
    exact ih k cv (List.mem_of_mem_filter h)

/-- Witness for C8: the invariant applied to the state reached by one store
of the literal `"hello"`, at that state's single entry. -/
theorem c8_witness :
    "0123456789abcdef0123456789abcdef01234567" =
      digest0 (CachedValue.mk 0 "hello").value :=
  c8_key_is_digest digest0 (activityValueCache digest0 0 [] "hello").2
    (CacheReach.op "hello" 0 CacheReach.empty)
    "0123456789abcdef0123456789abcdef01234567" ⟨0, "hello"⟩ (by decide)

/-- C9: the hash-pattern test is an unanchored substring match, so any value
containing a run of 40 hex characters anywhere is treated as a lookup key:
when it is not a previously stored digest the call returns the empty string
and stores nothing, and in no case is such a value registered under a new
key (in particular never under its own digest). -/
theorem c9_substring_match_is_lookup (digest : String → String) (t : Nat)
    (c : Cache) (v : String) (hrun : ContainsHexRun v) :
    (List.lookup v c = none → activityValueCache digest t c v = ("", c)) ∧
    (∀ k cv, (k, cv) ∈ (activityValueCache digest t c v).2 →
      k = v ∨ (k, cv) ∈ c) := by
  have hm : matchHashPattern v = true := (matchHashPattern_iff v).mpr hrun
  refine ⟨fun hl => activityValueCache_of_miss hm hl, ?_⟩
  intro k cv h
  rcases mem_activityValueCache_snd_of_match hm h with hmem | ⟨rfl, _⟩
  · exact Or.inr hmem
  · exact Or.inl rfl

/-- Witness for C9 at a 41-character value containing a 40-hex run, on the
empty cache: the call returns the empty string and stores nothing. -/
theorem c9_witness :
    activityValueCache digest0 7 [] (String.mk (List.replicate 41 'a')) =
      ("", []) :=
  (c9_substring_match_is_lookup digest0 7 [] (String.mk (List.replicate 41 'a'))
    ⟨[], List.replicate 40 'a', ['a'], by decide, by decide, by decide⟩).1 rfl

/-! ## Claim theorems: reconciliation -/

/-- C1 counterexample: with registry {A, B} and a load balancer referencing
only A, an emission failure (template read error) leaves the registry
already garbage-collected to {A}, not "exactly as it was before the
reconciliation" as the claim states. -/
theorem c1_counterexample :
    (HandleLoadBalancer depsFail parseLbA ["A"]
        [("A", polA), ("B", polB)] "lb").2.1 = .error "template read failed" ∧
    (HandleLoadBalancer depsFail parseLbA ["A"]
        [("A", polA), ("B", polB)] "lb").1 ≠ [("A", polA), ("B", polB)] :=
  ⟨rfl, by decide⟩

/-- C1 (amended): retain-only GC runs after a fully successful resolution
and before emission: when every referenced policy resolves, the registry is
restricted to the referenced names regardless of whether emission succeeds
or fails; when resolution fails, the registry is left unchanged (no GC). -/
theorem c1_gc_after_resolution_before_emission {Cfg : Type}
    (deps : WriteDeps Cfg)
    (parse : String → Except String ActivityDescriptions)
    (order : List String) (reg : Registry) (text : String)
    (d : ActivityDescriptions) (lb : ActivityLoadBalancer)
    (hparse : parse text = .ok d)
    (hlbs : d.loadBalancers = [lb])
    (hpd : lb.policyDescriptions = [])
    (horder : order.Perm (collectPolicyNames lb)) :
    ((∀ n ∈ collectPolicyNames lb, (List.lookup n reg).isSome) →
      (HandleLoadBalancer deps parse order reg text).1 =
        RetainOnly reg (collectPolicyNames lb)) ∧
    ((∃ n ∈ collectPolicyNames lb, List.lookup n reg = none) →
      (HandleLoadBalancer deps parse order reg text).1 = reg) := by
  constructor
  · intro hall
    have hall2 : ∀ n ∈ order, (List.lookup n reg).isSome := fun n hn =>
      hall n (horder.mem_iff.mp hn)
    have hok := resolvePolicies_all_found reg order hall2
    simp [HandleLoadBalancer, hparse, hlbs, hpd, hok]
  · intro hmissing
    have hmiss2 : ∃ n ∈ order, List.lookup n reg = none := by
      obtain ⟨n, hn, hnone⟩ := hmissing
      exact ⟨n, horder.mem_iff.mpr hn, hnone⟩
    obtain ⟨m, hm, hmnone, herr⟩ := resolvePolicies_missing reg order hmiss2
    simp [HandleLoadBalancer, hparse, hlbs, hpd, herr]

/-- Witness for C1 (amended): with registry {A, B}, a load balancer
referencing only A, and a failing emission, the post-call registry equals
the retain-only restriction to the referenced names. -/
theorem c1_witness :
    (HandleLoadBalancer depsFail parseLbA ["A"]
        [("A", polA), ("B", polB)] "lb").1 =
      RetainOnly [("A", polA), ("B", polB)] (collectPolicyNames lbA) :=
  (c1_gc_after_resolution_before_emission depsFail parseLbA ["A"]
    [("A", polA), ("B", polB)] "lb" ⟨[lbA]⟩ lbA rfl rfl rfl (by decide)).1
    (by decide)

/-- C3: a load-balancer update referencing at least one unregistered policy
name fails with an error naming a missing policy, performs no synthesis and
no emission, and leaves the registry exactly as it was. -/
theorem c3_fail_closed {Cfg : Type} (deps : WriteDeps Cfg)
    (parse : String → Except String ActivityDescriptions)
    (order : List String) (reg : Registry) (text : String)
    (d : ActivityDescriptions) (lb : ActivityLoadBalancer)
    (hparse : parse text = .ok d)
    (hlbs : d.loadBalancers = [lb])
    (hpd : lb.policyDescriptions = [])
    (horder : order.Perm (collectPolicyNames lb))
    (hmissing : ∃ n ∈ collectPolicyNames lb, List.lookup n reg = none) :
    ∃ m ∈ collectPolicyNames lb, List.lookup m reg = none ∧
      HandleLoadBalancer deps parse order reg text =
        (reg, .error ("policy not found " ++ m), none) := by
  have hmiss2 : ∃ n ∈ order, List.lookup n reg = none := by
    obtain ⟨n, hn, hnone⟩ := hmissing
    exact ⟨n, horder.mem_iff.mpr hn, hnone⟩
  obtain ⟨m, hm, hmnone, herr⟩ := resolvePolicies_missing reg order hmiss2
  refine ⟨m, horder.mem_iff.mp hm, hmnone, ?_⟩
  simp [HandleLoadBalancer, hparse, hlbs, hpd, herr]

/-- Witness for C3: registry {A}, load balancer referencing {A, B}:
reconciliation fails naming a missing policy, with registry intact and
nothing emitted. -/
theorem c3_witness :
    ∃ m ∈ collectPolicyNames lbAB, List.lookup m [("A", polA)] = none ∧
      HandleLoadBalancer deps0 parseLbAB ["A", "B"] [("A", polA)] "lb" =
        ([("A", polA)], .error ("policy not found " ++ m), none) :=
  c3_fail_closed deps0 parseLbAB ["A", "B"] [("A", polA)] "lb" ⟨[lbAB]⟩ lbAB
    rfl rfl rfl (by decide) ⟨"B", by decide, by decide⟩

/-- C4 counterexample: a successfully decoded snapshot with zero load
balancers is not "rejected with an error": the load-balancer sink returns
success (it does leave all state unchanged). -/
theorem c4_counterexample :
    policyOnlyShape ⟨[]⟩ = false ∧ loadBalancerOnlyShape ⟨[]⟩ = false ∧
    Send deps0 parseEmpty [] [("A", polA)] "set-loadbalancer" "snap" =
      ([("A", polA)], .ok (), none) :=
  ⟨rfl, rfl, rfl⟩

/-- C4 (amended): a decoded snapshot whose shape is neither policy-only nor
load-balancer is silently ignored rather than rejected: `Send` returns
success on every sink name, mutates no registry state, and emits nothing. -/
theorem c4_wrong_shape_silent {Cfg : Type} (deps : WriteDeps Cfg)
    (parse : String → Except String ActivityDescriptions)
    (order : List String) (reg : Registry) (name value : String)
    (d : ActivityDescriptions) (hparse : parse value = .ok d)
    (hp : policyOnlyShape d = false) (hl : loadBalancerOnlyShape d = false) :
    Send deps parse order reg name value = (reg, .ok (), none) := by
  unfold Send
  by_cases h1 : name = "set-policy"
  · rw [if_pos h1, HandlePolicy_wrong_shape parse reg value d hparse hp]
  · rw [if_neg h1]
    by_cases h2 : name = "set-loadbalancer"
    · rw [if_pos h2,
        HandleLoadBalancer_wrong_shape deps parse order reg value d hparse hl]
    · rw [if_neg h2]

/-- Witness for C4 (amended): a snapshot with one load balancer carrying two
policies is silently ignored by the policy sink. -/
theorem c4_witness :
    Send deps0 parseMixed [] [("A", polA)] "set-policy" "snap" =
      ([("A", polA)], .ok (), none) :=
  c4_wrong_shape_silent deps0 parseMixed [] [("A", polA)] "set-policy" "snap"
    ⟨[lbMixed]⟩ rfl (by decide) (by decide)

/-- C5 counterexample: the resolved policies are appended in the iteration
order of the `activePolicyNames` map. The order `["B", "A"]` is a legal
iteration order (a permutation of the collected key list `["A", "B"]`), and
under it the attached sequence is `[polB, polA]`, not the first-occurrence
order `[polA, polB]` the claim requires. -/
theorem c5_counterexample :
    (["B", "A"] : List String).Perm (collectPolicyNames lbAB) ∧
    collectPolicyNames lbAB = ["A", "B"] ∧
    (HandleLoadBalancer deps0 parseLbAB ["B", "A"]
        [("A", polA), ("B", polB)] "lb").2.2 =
      some { lbAB with policyDescriptions := [polB, polA] } ∧
    ([polB, polA] : List ActivityPolicy) ≠ [polA, polB] := by
  decide

/-- C5 (amended): for every iteration order of the referenced-name map (any
permutation of the duplicate-free collected name list), the sequence of
resolved policies attached to the load balancer lists the policy of each
referenced name exactly once — one entry per name of the (nodup) iteration
order — but in that map iteration order, which need not be the
first-occurrence order of the listener/backend scan. -/
theorem c5_each_policy_once {Cfg : Type} (deps : WriteDeps Cfg)
    (parse : String → Except String ActivityDescriptions)
    (order : List String) (reg : Registry) (text : String)
    (d : ActivityDescriptions) (lb : ActivityLoadBalancer)
    (hparse : parse text = .ok d)
    (hlbs : d.loadBalancers = [lb])
    (hpd : lb.policyDescriptions = [])
    (horder : order.Perm (collectPolicyNames lb))
    (hall : ∀ n ∈ collectPolicyNames lb, (List.lookup n reg).isSome) :
    order.Nodup ∧
    (HandleLoadBalancer deps parse order reg text).2.2 =
      some { lb with policyDescriptions :=
        order.filterMap (fun n => List.lookup n reg) } := by
  refine ⟨horder.nodup_iff.mpr (collectPolicyNames_nodup lb), ?_⟩
  have hall2 : ∀ n ∈ order, (List.lookup n reg).isSome := fun n hn =>
    hall n (horder.mem_iff.mp hn)
  have hok := resolvePolicies_all_found reg order hall2
  simp [HandleLoadBalancer, hparse, hlbs, hpd, hok]

/-- Witness for C5 (amended) at registry {A, B}, load balancer referencing
{A, B}, iteration order `["B", "A"]`. -/
theorem c5_witness :
    (["B", "A"] : List String).Nodup ∧
    (HandleLoadBalancer deps0 parseLbAB ["B", "A"]
        [("A", polA), ("B", polB)] "lb").2.2 =
      some { lbAB with policyDescriptions :=
        ["B", "A"].filterMap (fun n => List.lookup n [("A", polA), ("B", polB)]) } :=
  c5_each_policy_once deps0 parseLbAB ["B", "A"] [("A", polA), ("B", polB)]
    "lb" ⟨[lbAB]⟩ lbAB rfl rfl rfl (by decide) (by decide)

/-- C10: for any sink name other than `set-policy` and `set-loadbalancer`,
the configuration handler's `Send` returns success without consulting the
decoder, without touching the registry, and without emitting anything (the
result is the same for every decoder and every emission dependency). -/
theorem c10_unknown_name_noop {Cfg : Type} (deps : WriteDeps Cfg)
    (parse : String → Except String ActivityDescriptions)
    (order : List String) (reg : Registry) (name value : String)
    (h1 : name ≠ "set-policy") (h2 : name ≠ "set-loadbalancer") :
    Send deps parse order reg name value = (reg, .ok (), none) := by
  unfold Send
  rw [if_neg h1, if_neg h2]

/-- Witness for C10 at the sink name `get-instance-status`. -/
theorem c10_witness :
    Send deps0 parseLbA [] [("A", polA)] "get-instance-status" "v" =
      ([("A", polA)], .ok (), none) :=
  c10_unknown_name_noop deps0 parseLbA [] [("A", polA)]
    "get-instance-status" "v" (by decide) (by decide)

/-! ## Claim theorems: composite handler -/

/-- C7: a composite send with a failing primary performs no secondary send
and returns the primary's error; with a succeeding primary it sends the same
name and value to every secondary in order, discards their errors, and
reports success. -/
theorem c7_composite_send (h : CompositeHandler) (name value : String) :
    (∀ e, h.primary.send name value = .error e →
      CompositeHandler.Send h name value = (.error e, [])) ∧
    (h.primary.send name value = .ok () →
      CompositeHandler.Send h name value =
        (.ok (), h.secondaries.map (fun s => (name, value, s.send name value)))) := by
  constructor
  · intro e he
    unfold CompositeHandler.Send
    rw [he]
  · intro hok
    unfold CompositeHandler.Send
    rw [hok]

/-- Witness for C7: a failing primary suppresses the failing secondary; a
succeeding primary fans out to the failing secondary and still succeeds. -/
theorem c7_witness :
    CompositeHandler.Send (NewCompositeHandler failP [failS]) "n" "v" =
      (.error "primary down", []) ∧
    CompositeHandler.Send (NewCompositeHandler okP [failS]) "n" "v" =
      (.ok (), [("n", "v", .error "secondary down")]) :=
  ⟨(c7_composite_send (NewCompositeHandler failP [failS]) "n" "v").1
      "primary down" rfl,
   (c7_composite_send (NewCompositeHandler okP [failS]) "n" "v").2 rfl⟩

end LoadBalancerServo
